import Mathlib

/-!
Shallow embedding of the HelpCrunch chat exporter (`src/index.js`) and proofs
about it.

Boundary choices: the remote HTTP API is modelled as a function from endpoint
path to an optional parsed response (`none` stands for a request error or a
falsy body); the paginated conversation fetch (`getConversations`) and all
file I/O (`loadCache`/`saveCache`/`writeFile`) are treated as the boundary, so
the orchestrator `exportRun` takes the fetched conversation list and the
starting cache as inputs and returns the final cache together with the output
it writes (`none` when the run returns before writing one).  In-place
mutation (the department backfill, the in-place message sort) is modelled by
explicit state passing: the mutated object is part of the function's result.
JavaScript `||` fallback chains are modelled with explicit helpers in which
`undefined`/`null`, the empty string and the number 0 are falsy.
-/

namespace HCExport

/-- JavaScript `a || b` on optionally-present strings: `undefined`, `null` and
the empty string are falsy, so they fall through to `b`. -/
def jsOrStr : Option String → Option String → Option String
  | some s, b => if s == "" then b else some s
  | none, b => b

/-- JavaScript `a || b` where `a` is an optionally-present string and `b` a
plain string (the `message.text || message.body || message.content || ''`
chain ends in a plain string). -/
def jsOrS : Option String → String → String
  | some s, b => if s == "" then b else s
  | none, b => b

/-- JavaScript `a || b` on optionally-present numbers: `undefined`, `null` and
0 are falsy. -/
def jsOrInt : Option Int → Option Int → Option Int
  | some n, b => if n == 0 then b else some n
  | none, b => b

/-- JavaScript truthiness of an optionally-present string (`undefined` and the
empty string are falsy). -/
def strTruthy : Option String → Bool
  | some s => !(s == "")
  | none => false

/-- An agent object as referenced through `assignee?.name` and
`assigned_agent?.name`. -/
structure Agent where
  name : Option String := none
deriving DecidableEq

/-- A customer object as referenced through `customer?.email` and
`customer?.name`. -/
structure Customer where
  email : Option String := none
  name : Option String := none
deriving DecidableEq

/-- A raw message record (src/index.js reads the timestamp from
`created_at`/`createdAt`/`timestamp`, the author from `from`, the kind from
`type` and the body from `text`/`body`/`content`).  Timestamps are modelled as
the numeric value `new Date(...)` denotes. -/
structure Message where
  created_at : Option Int := none
  createdAt : Option Int := none
  timestamp : Option Int := none
  «from» : String := ""
  type : Option String := none
  text : Option String := none
  body : Option String := none
  content : Option String := none
deriving DecidableEq

/-- A raw conversation record from the list endpoint.  `department` stands for
the department object's `name` (`some name` models `{name}`; `none` models an
absent department object).  `messages` models the optional inline message
array. -/
structure Conversation where
  id : Nat
  created_at : Option Int := none
  createdAt : Option Int := none
  updated_at : Option Int := none
  updatedAt : Option Int := none
  status : Option String := none
  customer : Option Customer := none
  assignee : Option Agent := none
  assigned_agent : Option Agent := none
  department : Option String := none
  messages : Option (List Message) := none
deriving DecidableEq

/-- The derived per-chat record built by the formatters (src/index.js:326-339
and 345-359). -/
structure ExportedChat where
  chatId : String
  organizationId : String := ""
  createdAt : Option Int := none
  updatedAt : Option Int := none
  status : Option String := none
  customerEmail : Option String := none
  customerName : Option String := none
  assignedAgent : Option String := none
  department : Option String := none
  messageCount : Nat := 0
  conversationText : String := ""
  hasMessages : Bool := false
deriving DecidableEq

/-- The `metadata` block of the cache document (written on fresh
initialisation, src/index.js:56-59). -/
structure CacheMetadata where
  organizationId : String := ""
  departmentFilter : Option String := none
deriving DecidableEq

/-- The persistent cache document (src/index.js:50-60). -/
structure Cache where
  lastUpdated : Option String := none
  lastProcessedTimestamp : Option String := none
  lastProcessedBatch : Nat := 0
  totalBatches : Nat := 0
  chats : List ExportedChat := []
  metadata : CacheMetadata := {}
deriving DecidableEq

/-- The exporter's configuration (constructor, src/index.js:9-19).
`fromDate` is the timestamp (unix seconds) that `FROM_DATE` denotes, i.e.
`new Date(this.fromDate).getTime() / 1000` of src/index.js:467; parsing the
date string itself is boundary.  `departmentFilter` is optional because the
filtering code tests its truthiness (src/index.js:129), although the
constructor always sets it to the organization id. -/
structure Config where
  organizationId : String
  fromDate : Int
  departmentFilter : Option String := none
deriving DecidableEq

/-- The JSON report written at the end of a run (src/index.js:404-414 and
473-483). -/
structure ExportOutput where
  exportedAt : String
  organizationId : String
  departmentFilter : Option String
  fromDate : Int
  totalConversationsFound : Nat
  totalConversationsAfterFiltering : Nat
  newChatsProcessed : Nat
  totalExportedChats : Nat
  chats : List ExportedChat
deriving DecidableEq

/-- The fresh cache `loadCache` returns when no cache file exists
(src/index.js:50-60). -/
def freshCache (cfg : Config) : Cache :=
  { lastUpdated := none
    lastProcessedTimestamp := none
    lastProcessedBatch := 0
    totalBatches := 0
    chats := []
    metadata := { organizationId := cfg.organizationId
                  departmentFilter := cfg.departmentFilter } }

/-! The keyword categorizer (src/index.js:513-549). -/

/-- JavaScript `toLowerCase` restricted to the ASCII range the keyword lists
live in. -/
def jsToLower (s : String) : String := ⟨s.data.map Char.toLower⟩

/-- Characters of a string with leading and trailing whitespace removed. -/
def trimChars (l : List Char) : List Char :=
  ((l.dropWhile Char.isWhitespace).reverse.dropWhile Char.isWhitespace).reverse

/-- JavaScript `s.trim()`: strip whitespace from both ends. -/
def jsTrim (s : String) : String := ⟨trimChars s.data⟩

/-- One scanning pass of `text.match(new RegExp(keyword, 'g'))` for a literal
(metacharacter-free) keyword: count non-overlapping occurrences left to
right, advancing past each match.  `fuel` bounds the number of steps so the
recursion is structural; every step either ends the scan or shortens the text,
so `s.length + 1` steps always suffice (an empty pattern matches once at every
position, `length + 1` times in all, as the JavaScript global regex does). -/
def countMatchesAux (pattern : List Char) : Nat → List Char → Nat
  | 0, _ => 0
  | _ + 1, [] => if pattern.isEmpty then 1 else 0
  | fuel + 1, c :: rest =>
    if pattern.isPrefixOf (c :: rest) then
      countMatchesAux pattern fuel ((c :: rest).drop (max pattern.length 1)) + 1
    else
      countMatchesAux pattern fuel rest

/-- Number of matches of the literal keyword `pattern` in `s`,
as `(s.match(new RegExp(pattern, 'g')) || []).length` counts them. -/
def countMatches (pattern s : String) : Nat :=
  countMatchesAux pattern.data (s.data.length + 1) s.data

/-- The fixed category keyword table, in definition order (src/index.js:517-529;
JavaScript object literals iterate string keys in insertion order). -/
def categories : List (String × List String) :=
  [ ("bridge provider",
      ["bridge", "axelar", "wormhole", "ibc", "gravity bridge", "stargate", "cosmos hub"])
  , ("cache",
      ["cache", "caching", "refresh", "reload", "clear cache", "browser cache"])
  , ("deposit/withdrawal",
      ["deposit", "withdrawal", "withdraw", "deposit funds", "withdraw funds",
       "binance", "coinbase", "kucoin", "kraken"])
  , ("external team related",
      ["starname", "stargaze", "juno", "akash", "cosmos", "terra", "luna",
       "secret", "kava", "evmos"])
  , ("fe bug",
      ["bug", "error", "broken", "not working", "issue", "problem", "frontend",
       "ui bug", "interface"])
  , ("general inquiry",
      ["how to", "what is", "explain", "help", "question", "understand",
       "tutorial", "guide"])
  , ("glitch/can't reproduce",
      ["glitch", "weird", "strange", "can't reproduce", "cannot reproduce",
       "intermittent", "sometimes works"])
  , ("swaps",
      ["swap", "swapping", "trade", "trading", "exchange", "convert",
       "slippage", "pool"])
  , ("ibc relayer",
      ["relayer", "ibc", "timeout", "pending", "stuck", "failed transfer",
       "cross chain"])
  , ("unclear ux",
      ["confusing", "unclear", "difficult", "hard to", "ux", "user experience",
       "design"])
  , ("spam/marketing",
      ["marketing", "spam", "promotion", "advertisement", "airdrop",
       "free tokens"]) ]

/-- The fixed closed set of category labels. -/
def categoryLabels : List String := categories.map Prod.fst

/-- Total keyword score of one category on the lower-cased text
(src/index.js:533-539). -/
def scoreCategory (text : String) (keywords : List String) : Nat :=
  (keywords.map fun keyword => countMatches keyword text).sum

/-- The scores object, as an association list in definition order
(src/index.js:532-539). -/
def catScores (conversationText : String) : List (String × Nat) :=
  categories.map fun p => (p.1, scoreCategory (jsToLower conversationText) p.2)

/-- The maximum score, `Math.max(...Object.values(scores))`
(src/index.js:542). -/
def maxCatScore (conversationText : String) : Nat :=
  ((catScores conversationText).map Prod.snd).foldl max 0

/-- The categorizer (src/index.js:513-549).  The result is an optional label
because `Object.keys(scores).find(...)` can in principle yield `undefined`
(modelled as `none`); `assignedAgent` and `customerName` are accepted and
ignored exactly as in the source. -/
def categorizeConversation (conversationText assignedAgent customerName : String) :
    Option String :=
  let scores := catScores conversationText
  let maxScore := maxCatScore conversationText
  if maxScore = 0 then some "general inquiry"
  else (scores.find? fun p => p.2 == maxScore).map Prod.fst

/-! The conversation formatter (src/index.js:283-360). -/

/-- The numeric sort key of a message,
`new Date(a.created_at || a.createdAt || a.timestamp)` (src/index.js:289-292).
When every timestamp field is absent the JavaScript comparator returns `NaN`
and the stable sort leaves the relative order unchanged, which coincides with
giving all such messages the equal key 0. -/
def msgTime (message : Message) : Int :=
  (jsOrInt message.created_at (jsOrInt message.createdAt message.timestamp)).getD 0

/-- The in-place `messages.sort((a, b) => aTime - bTime)` of src/index.js:289-293.
`Array.prototype.sort` is stable, so it is modelled by a stable sort with
respect to `msgTime`; the value is the array's content after the call. -/
def sortMessages (messages : List Message) : List Message :=
  messages.insertionSort fun a b => msgTime a ≤ msgTime b

/-- The USER/AGENT tag of a message: default `'USER'`, overridden to `'AGENT'`
when `message.from === 'agent'` (src/index.js:308-312). -/
def messageTag (message : Message) : String :=
  if message.«from» == "agent" then "AGENT" else "USER"

/-- The message body, `message.text || message.body || message.content || ''`
(src/index.js:320). -/
def msgContent (message : Message) : String :=
  jsOrS message.text (jsOrS message.body (jsOrS message.content ""))

/-- One formatted line, `` `[${messageTag}] ${messageContent.trim()}\n` ``
(src/index.js:322). -/
def taggedLine (message : Message) : String :=
  "[" ++ messageTag message ++ "] " ++ jsTrim (msgContent message) ++ "\n"

/-- The `conversationText` accumulation loop over the sorted messages
(src/index.js:296-324): skip messages of type `'tech'`, then skip messages
whose trimmed body is empty, otherwise append the tagged line.  (The loop also
computes a `timestamp` string it never uses; that dead code is omitted.) -/
def buildConversationText : List Message → String
  | [] => ""
  | message :: rest =>
    if message.type == some "tech" then buildConversationText rest
    else if jsTrim (msgContent message) == "" then buildConversationText rest
    else taggedLine message ++ buildConversationText rest

/-- The same accumulation as `buildConversationText` but with no `'tech'`
test: used to state that the tech skip is exactly a filter on the sorted
message list. -/
def buildNonTechText : List Message → String
  | [] => ""
  | message :: rest =>
    if jsTrim (msgContent message) == "" then buildNonTechText rest
    else taggedLine message ++ buildNonTechText rest

/-- `formatConversationMetadata` (src/index.js:345-360), parameterised by
`this.organizationId`. -/
def formatConversationMetadata (orgId : String) (conversation : Conversation) :
    ExportedChat :=
  { chatId := Nat.repr conversation.id
    organizationId := orgId
    createdAt := jsOrInt conversation.created_at (jsOrInt conversation.createdAt none)
    updatedAt := jsOrInt conversation.updated_at (jsOrInt conversation.updatedAt none)
    status := conversation.status
    customerEmail := jsOrStr (conversation.customer.bind Customer.email) none
    customerName := jsOrStr (conversation.customer.bind Customer.name) none
    assignedAgent := jsOrStr (conversation.assigned_agent.bind Agent.name)
      (jsOrStr (conversation.assignee.bind Agent.name) none)
    department := jsOrStr conversation.department none
    messageCount := 0
    conversationText := ""
    hasMessages := false }

/-- `formatConversationWithMessages` (src/index.js:283-340).  The second
component of the result is the content of the caller's message array after the
call (the sort at src/index.js:289-293 mutates it in place); when the array is
empty the function returns the metadata record before sorting, leaving the
array untouched. -/
def formatConversationWithMessages (orgId : String) (conversation : Conversation)
    (messages : List Message) : ExportedChat × List Message :=
  if messages.isEmpty then (formatConversationMetadata orgId conversation, messages)
  else
    let sorted := sortMessages messages
    ({ chatId := Nat.repr conversation.id
       organizationId := orgId
       createdAt := jsOrInt conversation.created_at (jsOrInt conversation.createdAt none)
       updatedAt := jsOrInt conversation.updated_at (jsOrInt conversation.updatedAt none)
       status := conversation.status
       customerEmail := jsOrStr (conversation.customer.bind Customer.email) none
       customerName := jsOrStr (conversation.customer.bind Customer.name) none
       assignedAgent := jsOrStr (conversation.assigned_agent.bind Agent.name)
         (jsOrStr (conversation.assignee.bind Agent.name) none)
       department := jsOrStr conversation.department none
       messageCount := sorted.length
       conversationText := jsTrim (buildConversationText sorted)
       hasMessages := true }, sorted)

/-! The message fetcher (src/index.js:201-242). -/

/-- A parsed response body.  `data`/`messages` is `some arr` exactly when the
body holds an array under that key (`none` covers an absent key and a
non-array value, which fail the `Array.isArray` tests); `lastMessageText` is
only ever logged. -/
structure Response where
  data : Option (List Message) := none
  messages : Option (List Message) := none
  lastMessageText : Option String := none
deriving DecidableEq

/-- The fixed ordered candidate endpoint list for a chat id
(src/index.js:204-210). -/
def possibleEndpoints (chatId : String) : List String :=
  [ "/v1/chats/" ++ chatId ++ "/messages"
  , "/chats/" ++ chatId ++ "/messages"
  , "/v1/conversations/" ++ chatId ++ "/messages"
  , "/conversations/" ++ chatId ++ "/messages"
  , "/v1/chats/" ++ chatId ]

/-- The endpoint probing loop (src/index.js:212-237).  `api` maps an endpoint
to its parsed body, `none` standing for a request error or a falsy body (both
make the loop move on).  An array under `data` — empty arrays included, since
an empty JavaScript array is truthy — is returned at once (first 100 entries);
otherwise an array under `messages` likewise; otherwise the next candidate is
tried, and `[]` is returned when the candidates run out. -/
def tryEndpoints (api : String → Option Response) : List String → List Message
  | [] => []
  | endpoint :: rest =>
    match api endpoint with
    | none => tryEndpoints api rest
    | some response =>
      match response.data with
      | some arr => arr.take 100
      | none =>
        match response.messages with
        | some arr => arr.take 100
        | none => tryEndpoints api rest

/-- `getChatMessages` (src/index.js:201-242). -/
def getChatMessages (api : String → Option Response) (chatId : String) :
    List Message :=
  tryEndpoints api (possibleEndpoints chatId)

/-- The message fetcher as the specification and claim C3 word it (a second
definition, written from the spec's words, for the refinement comparison):
a candidate is accepted only when its response holds a NON-EMPTY array under
`data` or, failing that, `messages`; an empty array, like an error, makes the
fetcher proceed to the next candidate. -/
def tryEndpointsSpec (api : String → Option Response) : List String → List Message
  | [] => []
  | endpoint :: rest =>
    match api endpoint with
    | none => tryEndpointsSpec api rest
    | some response =>
      match response.data with
      | some (m :: ms) => (m :: ms).take 100
      | _ =>
        match response.messages with
        | some (m :: ms) => (m :: ms).take 100
        | _ => tryEndpointsSpec api rest

/-- `getChatMessages` as claim C3 words it (see `tryEndpointsSpec`). -/
def getChatMessagesSpec (api : String → Option Response) (chatId : String) :
    List Message :=
  tryEndpointsSpec api (possibleEndpoints chatId)

/-- `processConversation` (src/index.js:247-278), with the per-conversation
delays and logging dropped.  The second component is the conversation object
after the call: when messages are inline, `formatConversationWithMessages`
sorts that very array in place, so the post-state carries the sorted array;
messages fetched from the API are local to the call.  The `try`/`catch` and
`null` returns guard runtime exceptions only, which the pure model cannot
raise, so the formatted record is always produced. -/
def processConversation (orgId : String) (api : String → Option Response)
    (conversation : Conversation) : ExportedChat × Conversation :=
  match conversation.messages with
  | some inlineMessages =>
    let result := formatConversationWithMessages orgId conversation inlineMessages
    (result.1, { conversation with messages := some result.2 })
  | none =>
    let messages := getChatMessages api (Nat.repr conversation.id)
    if messages.length > 0 then
      ((formatConversationWithMessages orgId conversation messages).1, conversation)
    else
      (formatConversationMetadata orgId conversation, conversation)

/-! The department filter (src/index.js:111-138). -/

/-- The assignee display name,
`conversation.assignee?.name || conversation.assigned_agent?.name`
(src/index.js:119). -/
def assigneeDisplayName (conversation : Conversation) : Option String :=
  jsOrStr (conversation.assignee.bind Agent.name)
    (conversation.assigned_agent.bind Agent.name)

/-- The in-place department backfill (src/index.js:117-126): when the
conversation has no department AND has an assignee or assigned agent, the
department becomes `"SQUID"` when the assignee display name is exactly
`"Squid Team"` and `"OSL"` otherwise. -/
def backfillDepartment (conversation : Conversation) : Conversation :=
  if conversation.department.isNone then
    if conversation.assignee.isSome || conversation.assigned_agent.isSome then
      if assigneeDisplayName conversation == some "Squid Team" then
        { conversation with department := some "SQUID" }
      else
        { conversation with department := some "OSL" }
    else conversation
  else conversation

/-- The filter predicate of src/index.js:129-133, applied after the backfill:
drop exactly when the filter is truthy and the department name differs. -/
def keepByDepartment (departmentFilter : Option String)
    (conversation : Conversation) : Bool :=
  if strTruthy departmentFilter then conversation.department == departmentFilter
  else true

/-- `filterConversationsByDepartment` (src/index.js:111-138).  The source
mutates each conversation inside the filter callback before testing it; the
pure rendering backfills first and filters the backfilled records. -/
def filterConversationsByDepartment (departmentFilter : Option String)
    (conversations : List Conversation) : List Conversation :=
  (conversations.map backfillDepartment).filter (keepByDepartment departmentFilter)

/-- The department backfill as the specification and claim C5 word it (a
second definition, written from the spec's words, for the refinement
comparison): EVERY conversation with no department has its assignee display
name inspected and gets `"SQUID"` when that name equals `"Squid Team"` and
`"OSL"` otherwise — with no requirement that an assignee be present. -/
def backfillDepartmentSpec (conversation : Conversation) : Conversation :=
  if conversation.department.isNone then
    if assigneeDisplayName conversation == some "Squid Team" then
      { conversation with department := some "SQUID" }
    else
      { conversation with department := some "OSL" }
  else conversation

/-- The department filter as claim C5 words it (see
`backfillDepartmentSpec`). -/
def filterConversationsByDepartmentSpec (departmentFilter : Option String)
    (conversations : List Conversation) : List Conversation :=
  (conversations.map backfillDepartmentSpec).filter (keepByDepartment departmentFilter)

/-! The cache operations and the export orchestrator (src/index.js:67-106 and
365-508). -/

/-- `isConversationCached` (src/index.js:67-69):
`cache.chats.some(chat => chat.chatId === conversationId.toString())`. -/
def isConversationCached (cache : Cache) (conversationId : Nat) : Bool :=
  cache.chats.any fun chat => chat.chatId == Nat.repr conversationId

/-- The output-side date filter predicate of src/index.js:468-470:
`parseInt(chat.createdAt) >= fromDateTimestamp`.  A `null` `createdAt` parses
to `NaN`, and `NaN >= x` is false, so such chats are dropped. -/
def chatDateOk (fromDateTimestamp : Int) (chat : ExportedChat) : Bool :=
  match chat.createdAt with
  | some t => t ≥ fromDateTimestamp
  | none => false

/-- `cache.chats.filter(...)` by date for the final export
(src/index.js:467-471). -/
def dateFilteredChats (fromDateTimestamp : Int) (chats : List ExportedChat) :
    List ExportedChat :=
  chats.filter (chatDateOk fromDateTimestamp)

/-- The output written in the `NothingNew` branch (src/index.js:404-414): the
chats are `cache.chats` as they are. -/
def nothingNewOutput (cfg : Config) (cache : Cache)
    (conversationsFound conversationsAfterFiltering : Nat) (now : String) :
    ExportOutput :=
  { exportedAt := now
    organizationId := cfg.organizationId
    departmentFilter := cfg.departmentFilter
    fromDate := cfg.fromDate
    totalConversationsFound := conversationsFound
    totalConversationsAfterFiltering := conversationsAfterFiltering
    newChatsProcessed := 0
    totalExportedChats := cache.chats.length
    chats := cache.chats }

/-- The batch loop (src/index.js:429-463), returning the list of cache states
as `saveCache` persists them, one after each batch append.  `fuel` bounds the
iteration count so the recursion is structural; every iteration consumes at
least one conversation, so `remaining.length` iterations always suffice.
`totalBatches` is `Math.ceil(uncached.length / batchSize)` and `batchNumber`
runs from 1, as in the source; in the pure model every processed conversation
yields a record, so a batch's results are never empty and every batch is
appended and saved. -/
def processBatchesAux (orgId : String) (api : String → Option Response)
    (now : String) (totalBatches : Nat) :
    Nat → Cache → List Conversation → Nat → List Cache
  | 0, _, _, _ => []
  | fuel + 1, cache, remaining, batchNumber =>
    if remaining.isEmpty then []
    else
      let batch := remaining.take 10
      let batchResults := batch.map fun conversation =>
        (processConversation orgId api conversation).1
      let savedCache : Cache :=
        { cache with
          chats := cache.chats ++ batchResults
          lastProcessedTimestamp := some now
          lastProcessedBatch := batchNumber
          totalBatches := totalBatches
          lastUpdated := some now }
      savedCache ::
        processBatchesAux orgId api now totalBatches fuel savedCache
          (remaining.drop 10) (batchNumber + 1)

/-- The cache states persisted after each batch of a run's batch loop. -/
def processBatchStates (orgId : String) (api : String → Option Response)
    (now : String) (cache : Cache) (uncached : List Conversation) : List Cache :=
  processBatchesAux orgId api now ((uncached.length + 9) / 10)
    uncached.length cache uncached 1

/-- The cache as it stands when the batch loop ends. -/
def processBatches (orgId : String) (api : String → Option Response)
    (now : String) (cache : Cache) (uncached : List Conversation) : Cache :=
  (processBatchStates orgId api now cache uncached).getLastD cache

/-- The export orchestrator (src/index.js:365-508) from the point where the
conversation list has been fetched: department-filter, diff against the cache,
then either the `NothingNew` output or the batch loop followed by the
date-filtered output.  Returns the final cache and the output written (`none`
when the run returns without writing one, src/index.js:380-383 and
388-391). -/
def exportRun (cfg : Config) (cache : Cache) (conversations : List Conversation)
    (api : String → Option Response) (now : String) :
    Cache × Option ExportOutput :=
  if conversations.isEmpty then (cache, none)
  else
    let filteredConversations :=
      filterConversationsByDepartment cfg.departmentFilter conversations
    if filteredConversations.isEmpty then (cache, none)
    else
      let uncachedConversations := filteredConversations.filter
        fun conversation => !(isConversationCached cache conversation.id)
      if uncachedConversations.isEmpty then
        (cache,
         some (nothingNewOutput cfg cache conversations.length
           filteredConversations.length now))
      else
        let finalCache :=
          processBatches cfg.organizationId api now cache uncachedConversations
        let filteredCachedChats := dateFilteredChats cfg.fromDate finalCache.chats
        (finalCache,
         some { exportedAt := now
                organizationId := cfg.organizationId
                departmentFilter := cfg.departmentFilter
                fromDate := cfg.fromDate
                totalConversationsFound := conversations.length
                totalConversationsAfterFiltering := filteredConversations.length
                newChatsProcessed := uncachedConversations.length
                totalExportedChats := filteredCachedChats.length
                chats := filteredCachedChats })

/-- The cache states a run persists after each batch append (empty in the
branches that never reach the batch loop). -/
def exportRunCacheStates (cfg : Config) (cache : Cache)
    (conversations : List Conversation) (api : String → Option Response)
    (now : String) : List Cache :=
  if conversations.isEmpty then []
  else
    let filteredConversations :=
      filterConversationsByDepartment cfg.departmentFilter conversations
    if filteredConversations.isEmpty then []
    else
      let uncachedConversations := filteredConversations.filter
        fun conversation => !(isConversationCached cache conversation.id)
      if uncachedConversations.isEmpty then []
      else processBatchStates cfg.organizationId api now cache uncachedConversations

/-! The CSV summary file name (src/index.js:490). -/

/-- JavaScript `s.replace(pattern, replacement)` for a plain string pattern
and a replacement containing no `$` placeholders: replace the first
occurrence only, and return `s` unchanged when the pattern does not occur. -/
def replaceFirst (pattern replacement : List Char) : List Char → List Char
  | [] => if pattern.isEmpty then replacement else []
  | c :: rest =>
    if pattern.isPrefixOf (c :: rest) then
      replacement ++ (c :: rest).drop pattern.length
    else c :: replaceFirst pattern replacement rest

/-- Whether `pattern` occurs in the character list. -/
def containsSub (pattern : List Char) : List Char → Bool
  | [] => pattern.isEmpty
  | c :: rest => pattern.isPrefixOf (c :: rest) || containsSub pattern rest

/-- String-level wrapper of `replaceFirst`. -/
def jsReplaceOnce (s pattern replacement : String) : String :=
  ⟨replaceFirst pattern.data replacement.data s.data⟩

/-- String-level wrapper of `containsSub`. -/
def strContains (s pattern : String) : Bool :=
  containsSub pattern.data s.data

/-- The CSV summary file name,
`this.outputFile.replace('.json', '_summary.csv')` (src/index.js:490). -/
def csvFileName (outputFile : String) : String :=
  jsReplaceOnce outputFile ".json" "_summary.csv"

/-! Concrete runs used by the counterexamples and witnesses below. -/

/-- A customer message with body "hi". -/
def hiMessage : Message := { «from» := "customer", text := some "hi" }

/-- An agent message with body "hello". -/
def helloMessage : Message := { «from» := "agent", text := some "hello" }

/-- A technical message (type `'tech'`), skipped by the transcript loop. -/
def techMessage : Message := { «from» := "agent", type := some "tech", text := some "rated" }

/-- A customer message created later than `earlyMessage` but listed first. -/
def lateMessage : Message := { «from» := "customer", text := some "second", created_at := some 20 }

/-- An agent message created earlier than `lateMessage` but listed second. -/
def earlyMessage : Message := { «from» := "agent", text := some "first", created_at := some 10 }

/-- A conversation carrying inline messages that are out of order. -/
def inlineConv : Conversation := { id := 9, messages := some [lateMessage, earlyMessage] }

/-- An API on which every request fails. -/
def apiErr : String → Option Response := fun _ => none

/-- One message returned by the second candidate endpoint of
`apiEmptyThenFull`. -/
def probeMessage : Message := { «from» := "customer", text := some "probe" }

/-- An API whose first candidate endpoint for chat 7 answers with an empty
`data` array and whose second answers with one message. -/
def apiEmptyThenFull : String → Option Response := fun endpoint =>
  if endpoint == "/v1/chats/7/messages" then some { data := some [] }
  else if endpoint == "/chats/7/messages" then some { data := some [probeMessage] }
  else none

/-- A configuration whose `FROM_DATE` denotes timestamp 100. -/
def cfgStale : Config :=
  { organizationId := "ORG", fromDate := 100, departmentFilter := some "ORG" }

/-- A cached chat whose `createdAt` (50) lies before `cfgStale.fromDate`
(100). -/
def staleChat : ExportedChat := { chatId := "1", createdAt := some 50 }

/-- A cache holding only `staleChat`. -/
def staleCache : Cache := { chats := [staleChat] }

/-- A fetched conversation with id 1 in department ORG (already cached in
`staleCache` as chat "1"). -/
def orgConv : Conversation := { id := 1, department := some "ORG" }

/-- A fetched conversation with id 2 in department ORG (not cached in
`staleCache`). -/
def orgConv2 : Conversation := { id := 2, department := some "ORG" }

/-- The output the `NothingNew` branch writes for the
`exportRun cfgStale staleCache [orgConv] apiErr "t"` run. -/
def staleOutput : ExportOutput := nothingNewOutput cfgStale staleCache 1 1 "t"

/-- A conversation with no department and no assignee of either kind. -/
def noAgentConv : Conversation := { id := 5 }

/-! Helper lemmas. -/

/-- Folding `max` over a list of naturals yields the seed or an element of the
list. -/
theorem foldl_max_eq_init_or_mem : ∀ (l : List Nat) (i : Nat),
    l.foldl max i = i ∨ l.foldl max i ∈ l
  | [], _ => Or.inl rfl
  | a :: l, i => by
    rcases foldl_max_eq_init_or_mem l (max i a) with h | h
    · rw [List.foldl_cons, h]
      rcases max_choice i a with h2 | h2
      · exact Or.inl h2
      · exact Or.inr (by rw [h2]; exact List.mem_cons_self a l)
    · exact Or.inr (List.mem_cons_of_mem a h)

/-- The labels of the score table are exactly the category labels, in
order. -/
theorem catScores_map_fst (s : String) :
    (catScores s).map Prod.fst = categoryLabels := by
  simp [catScores, categoryLabels, List.map_map]

/-- Projection of the formatter on a non-empty message list: the produced
transcript. -/
theorem formatCWM_conversationText (orgId : String) (conversation : Conversation)
    (messages : List Message) (h : messages.isEmpty = false) :
    (formatConversationWithMessages orgId conversation messages).1.conversationText =
      jsTrim (buildConversationText (sortMessages messages)) := by
  simp [formatConversationWithMessages, h]

/-- Projection of the formatter on a non-empty message list: the message
count. -/
theorem formatCWM_messageCount (orgId : String) (conversation : Conversation)
    (messages : List Message) (h : messages.isEmpty = false) :
    (formatConversationWithMessages orgId conversation messages).1.messageCount =
      (sortMessages messages).length := by
  simp [formatConversationWithMessages, h]

/-- Projection of the formatter: the post-state of the caller's array. -/
theorem formatCWM_snd (orgId : String) (conversation : Conversation)
    (messages : List Message) :
    (formatConversationWithMessages orgId conversation messages).2 =
      if messages.isEmpty then messages else sortMessages messages := by
  by_cases h : messages.isEmpty <;> simp [formatConversationWithMessages, h]

/-- Projection of the formatter: the chat id is always the decimal id. -/
theorem formatCWM_chatId (orgId : String) (conversation : Conversation)
    (messages : List Message) :
    (formatConversationWithMessages orgId conversation messages).1.chatId =
      Nat.repr conversation.id := by
  by_cases h : messages.isEmpty <;>
    simp [formatConversationWithMessages, formatConversationMetadata, h]

/-- C10: for any two calls to `categorizeConversation` with equal
`conversationText` and arbitrary `assignedAgent`/`customerName` arguments, the
returned category label is equal — the result depends only on the transcript
text. -/
theorem categorize_depends_only_on_text (s a c a2 c2 : String) :
    categorizeConversation s a c = categorizeConversation s a2 c2 := rfl

/-- C4: for every transcript string (the empty one included),
`categorizeConversation` returns exactly one label, the label lies in the
fixed closed category set, the result is the same however the other two
arguments vary, the label is the default `"general inquiry"` when every
category scores zero, and otherwise it is the first category in
definition order whose score equals the maximum. -/
theorem categorize_total_first_max (s a c : String) :
    ∃ l, categorizeConversation s a c = some l ∧ l ∈ categoryLabels ∧
      (∀ a2 c2, categorizeConversation s a2 c2 = some l) ∧
      (maxCatScore s = 0 → l = "general inquiry") ∧
      (maxCatScore s ≠ 0 →
        (catScores s).find? (fun p => p.2 == maxCatScore s) =
          some (l, maxCatScore s)) := by
  by_cases h : maxCatScore s = 0
  · refine ⟨"general inquiry", ?_, ?_, ?_, fun _ => rfl, fun hne => absurd h hne⟩
    · simp [categorizeConversation, h]
    · decide
    · intro a2 c2; simp [categorizeConversation, h]
  · have hmem : maxCatScore s ∈ (catScores s).map Prod.snd := by
      rcases foldl_max_eq_init_or_mem ((catScores s).map Prod.snd) 0 with h0 | h0
      · exact absurd h0 h
      · exact h0
    obtain ⟨p, hp, hps⟩ := List.mem_map.mp hmem
    have hsome : ((catScores s).find? fun r => r.2 == maxCatScore s).isSome := by
      rw [List.find?_isSome]
      exact ⟨p, hp, by simp [hps]⟩
    obtain ⟨q, hq⟩ := Option.isSome_iff_exists.mp hsome
    have hq2 : q.2 = maxCatScore s := by simpa using List.find?_some hq
    have hqmem : q ∈ catScores s := List.mem_of_find?_eq_some hq
    refine ⟨q.1, ?_, ?_, ?_, fun h0 => absurd h0 h, fun _ => ?_⟩
    · simp [categorizeConversation, h, hq]
    · have := List.mem_map_of_mem Prod.fst hqmem
      rwa [catScores_map_fst] at this
    · intro a2 c2; simp [categorizeConversation, h, hq]
    · rw [hq]
      exact congrArg some (Prod.ext rfl hq2)

/-- C7: the formatter tags a message AGENT exactly when its `from` field is
`'agent'` and USER otherwise, and on the two-message example
`[{from:'customer',text:'hi'}, {from:'agent',text:'hello'}]` (for any
conversation record) it produces exactly `"[USER] hi\n[AGENT] hello"`. -/
theorem formatter_tagging (orgId : String) (conversation : Conversation) :
    (∀ message : Message,
      (messageTag message = "AGENT" ↔ message.«from» = "agent") ∧
      (message.«from» ≠ "agent" → messageTag message = "USER")) ∧
    (formatConversationWithMessages orgId conversation
        [hiMessage, helloMessage]).1.conversationText
      = "[USER] hi\n[AGENT] hello" := by
  constructor
  · intro message
    constructor
    · constructor
      · intro htag
        by_contra hne
        rw [messageTag, if_neg (by simpa using hne)] at htag
        exact absurd htag (by decide)
      · intro he; simp [messageTag, he]
    · intro hne; rw [messageTag, if_neg (by simpa using hne)]
  · rw [formatCWM_conversationText orgId conversation [hiMessage, helloMessage] rfl]
    decide

/-- When the pattern does not occur, `replaceFirst` leaves the characters
unchanged. -/
theorem replaceFirst_of_not_contains (pattern replacement : List Char) :
    ∀ s : List Char, containsSub pattern s = false →
      replaceFirst pattern replacement s = s
  | [], h => by
    rw [containsSub] at h
    rw [replaceFirst, if_neg (by simp [h])]
  | c :: rest, h => by
    rw [containsSub, Bool.or_eq_false_iff] at h
    rw [replaceFirst, if_neg (by simp [h.1]),
      replaceFirst_of_not_contains pattern replacement rest h.2]

/-- C8: the CSV summary filename is the output filename with the first
occurrence of `.json` replaced by `_summary.csv`; when the output filename
does not contain `.json`, the derived name equals the output filename itself,
so the CSV write targets (and overwrites) the JSON export file. -/
theorem csv_filename_fallback (outputFile : String)
    (h : strContains outputFile ".json" = false) :
    csvFileName outputFile = outputFile ∧
    csvFileName "exported_chats.json" = "exported_chats_summary.csv" := by
  constructor
  · rw [csvFileName, jsReplaceOnce, replaceFirst_of_not_contains _ _ _ h]
  · decide

/-- Witness for `csv_filename_fallback` at the concrete output filename
"output.txt". -/
theorem csv_filename_fallback_witness :
    csvFileName "output.txt" = "output.txt" ∧
    csvFileName "exported_chats.json" = "exported_chats_summary.csv" :=
  csv_filename_fallback "output.txt" (by decide)

/-- C5 counterexample: a conversation with no department and no assignee of
either kind is left without a department by the code and dropped by an "OSL"
filter, while the claim's reading backfills it to OSL and keeps it. -/
theorem department_backfill_counterexample :
    noAgentConv.department = none ∧ noAgentConv.assignee = none ∧
    noAgentConv.assigned_agent = none ∧
    filterConversationsByDepartment (some "OSL") [noAgentConv] = [] ∧
    filterConversationsByDepartmentSpec (some "OSL") [noAgentConv] =
      [{ noAgentConv with department := some "OSL" }] ∧
    filterConversationsByDepartment (some "OSL") [noAgentConv] ≠
      filterConversationsByDepartmentSpec (some "OSL") [noAgentConv] := by
  decide

/-- C5 amended: the department filter preserves order and keeps exactly the
conversations whose possibly-backfilled department equals the filter (all of
them when the filter is unset), and the backfill assigns SQUID/OSL by the
sentinel assignee name only when the conversation has no department AND an
assignee or assigned agent is present; with neither present the conversation
is left unchanged, and a present department is never overwritten. -/
theorem department_filter_amended (departmentFilter : Option String)
    (conversations : List Conversation) :
    List.Sublist (filterConversationsByDepartment departmentFilter conversations)
      (conversations.map backfillDepartment) ∧
    (∀ c, c ∈ filterConversationsByDepartment departmentFilter conversations ↔
      ((∃ c0 ∈ conversations, backfillDepartment c0 = c) ∧
        (strTruthy departmentFilter = true → c.department = departmentFilter))) ∧
    (strTruthy departmentFilter = false →
      filterConversationsByDepartment departmentFilter conversations =
        conversations.map backfillDepartment) ∧
    (∀ c : Conversation, c.department = none →
      ((c.assignee.isSome ∨ c.assigned_agent.isSome) →
        (backfillDepartment c).department =
          some (if assigneeDisplayName c == some "Squid Team" then "SQUID"
            else "OSL")) ∧
      (c.assignee = none → c.assigned_agent = none → backfillDepartment c = c)) ∧
    (∀ c : Conversation, c.department.isSome → backfillDepartment c = c) := by
  refine ⟨List.filter_sublist _, ?_, ?_, ?_, ?_⟩
  · intro c
    rw [filterConversationsByDepartment, List.mem_filter, List.mem_map]
    constructor
    · rintro ⟨⟨c0, hc0, rfl⟩, hkeep⟩
      refine ⟨⟨c0, hc0, rfl⟩, fun ht => ?_⟩
      rw [keepByDepartment, if_pos ht] at hkeep
      exact eq_of_beq hkeep
    · rintro ⟨⟨c0, hc0, rfl⟩, hdep⟩
      refine ⟨⟨c0, hc0, rfl⟩, ?_⟩
      rw [keepByDepartment]
      by_cases ht : strTruthy departmentFilter = true
      · rw [if_pos ht]
        exact beq_iff_eq.mpr (hdep ht)
      · rw [if_neg ht]
  · intro hfalse
    rw [filterConversationsByDepartment]
    refine List.filter_eq_self.mpr fun c _ => ?_
    rw [keepByDepartment, if_neg (by simp [hfalse])]
  · intro c hdep
    constructor
    · intro hass
      rw [backfillDepartment, if_pos (by simp [hdep]),
        if_pos (by rcases hass with h | h <;> simp [h])]
      by_cases hsq : (assigneeDisplayName c == some "Squid Team") = true
      · rw [if_pos hsq, if_pos hsq]
      · rw [if_neg hsq, if_neg hsq]
    · intro h1 h2
      rw [backfillDepartment, if_pos (by simp [hdep]), if_neg (by simp [h1, h2])]
  · intro c hdep
    obtain ⟨d, hd⟩ := Option.isSome_iff_exists.mp hdep
    rw [backfillDepartment, if_neg (by simp [hd])]

/-- Characterization of the endpoint probing loop: its result is the first
array an endpoint yields (under `data`, else `messages`), truncated to 100
entries, or `[]` when no endpoint yields one. -/
theorem tryEndpoints_eq_findSome (api : String → Option Response) :
    ∀ endpoints : List String,
      tryEndpoints api endpoints =
        ((endpoints.findSome? fun endpoint =>
            (api endpoint).bind fun r => r.data.orElse fun _ => r.messages).getD
          []).take 100
  | [] => by simp [tryEndpoints]
  | endpoint :: rest => by
    rw [List.findSome?_cons]
    cases hapi : api endpoint with
    | none => simpa [tryEndpoints, hapi] using tryEndpoints_eq_findSome api rest
    | some response =>
      cases hdata : response.data with
      | some arr => simp [tryEndpoints, hapi, hdata, Option.orElse]
      | none =>
        cases hmsg : response.messages with
        | some arr => simp [tryEndpoints, hapi, hdata, hmsg, Option.orElse]
        | none =>
          simpa [tryEndpoints, hapi, hdata, hmsg, Option.orElse] using
            tryEndpoints_eq_findSome api rest

/-- C3 amended: for every chat id the fetcher tries the fixed candidate
endpoints in order and returns, from the first candidate whose response holds
an array under `data` (else under `messages`, in that priority), the first 100
entries of that array in preserved order — an EMPTY accepted array included,
which ends the probing at once; candidates that error or hold no array are
skipped, and exhausting them all yields the empty sequence, never an error. -/
theorem getChatMessages_first_array (api : String → Option Response)
    (chatId : String) :
    getChatMessages api chatId =
      (((possibleEndpoints chatId).findSome? fun endpoint =>
          (api endpoint).bind fun r => r.data.orElse fun _ => r.messages).getD
        []).take 100 :=
  tryEndpoints_eq_findSome api (possibleEndpoints chatId)

/-- C3 counterexample: on an API whose first candidate answers an empty `data`
array and whose second answers one message, the code returns `[]` at once,
while the claim's reading (skip empty arrays) would return the message. -/
theorem empty_array_accepted_counterexample :
    getChatMessages apiEmptyThenFull "7" = [] ∧
    getChatMessagesSpec apiEmptyThenFull "7" = [probeMessage] ∧
    getChatMessages apiEmptyThenFull "7" ≠ getChatMessagesSpec apiEmptyThenFull "7" := by
  decide

/-- The transcript loop's skip of `'tech'` messages is exactly a filter on the
message list. -/
theorem buildConversationText_eq_filter : ∀ messages : List Message,
    buildConversationText messages =
      buildNonTechText (messages.filter fun m => !(m.type == some "tech"))
  | [] => rfl
  | message :: rest => by
    by_cases htech : (message.type == some "tech") = true
    · rw [buildConversationText, if_pos htech,
        List.filter_cons_of_neg (by simp [htech]),
        buildConversationText_eq_filter rest]
    · rw [buildConversationText, if_neg htech,
        List.filter_cons_of_pos (by simp [htech]),
        buildConversationText_eq_filter rest]
      rfl

/-- C6: for every conversation and non-empty message list, the formatter's
`messageCount` is the full length of the input list, counted before the tech
skip, while `conversationText` is built from the sorted list with the
`'tech'`-type messages filtered out. -/
theorem messageCount_counts_tech_messages (orgId : String)
    (conversation : Conversation) (messages : List Message)
    (h : messages ≠ []) :
    (formatConversationWithMessages orgId conversation messages).1.messageCount =
      messages.length ∧
    (formatConversationWithMessages orgId conversation messages).1.conversationText =
      jsTrim (buildNonTechText
        ((sortMessages messages).filter fun m => !(m.type == some "tech"))) := by
  have hne : messages.isEmpty = false := by simpa using h
  constructor
  · rw [formatCWM_messageCount orgId conversation messages hne]
    simp [sortMessages, List.length_insertionSort]
  · rw [formatCWM_conversationText orgId conversation messages hne,
      buildConversationText_eq_filter]

/-- Witness for `messageCount_counts_tech_messages`: with one content message
and one tech message the count is 2 while the transcript holds one line. -/
theorem messageCount_counts_tech_messages_witness :
    ((formatConversationWithMessages "ORG" noAgentConv
        [hiMessage, techMessage]).1.messageCount = [hiMessage, techMessage].length ∧
      (formatConversationWithMessages "ORG" noAgentConv
        [hiMessage, techMessage]).1.conversationText =
        jsTrim (buildNonTechText ((sortMessages [hiMessage, techMessage]).filter
          fun m => !(m.type == some "tech")))) ∧
    (formatConversationWithMessages "ORG" noAgentConv
        [hiMessage, techMessage]).1.messageCount = 2 ∧
    (formatConversationWithMessages "ORG" noAgentConv
        [hiMessage, techMessage]).1.conversationText = "[USER] hi" :=
  ⟨messageCount_counts_tech_messages "ORG" noAgentConv [hiMessage, techMessage]
      (by decide),
    by decide, by decide⟩

/-- C9: the formatter sorts the caller's message array in place — modelled as
the array post-state it returns — so a conversation whose inline messages are
passed through `processConversation` ends up carrying the reordered array. -/
theorem format_sorts_caller_array (orgId : String) (api : String → Option Response)
    (conversation inlineConversation : Conversation) (messages : List Message)
    (h : inlineConversation.messages = some messages) :
    (formatConversationWithMessages orgId conversation messages).2 =
      sortMessages messages ∧
    (processConversation orgId api inlineConversation).2.messages =
      some (sortMessages messages) := by
  have hsnd : ∀ conv : Conversation,
      (formatConversationWithMessages orgId conv messages).2 =
        sortMessages messages := by
    intro conv
    rw [formatCWM_snd]
    by_cases he : messages.isEmpty
    · rw [if_pos he, List.isEmpty_iff.mp he]
      rfl
    · rw [if_neg he]
  refine ⟨hsnd conversation, ?_⟩
  simp only [processConversation, h]
  simp [hsnd inlineConversation]

/-- Witness for `format_sorts_caller_array`: two out-of-order inline messages
come back in timestamp order, a different order than they were passed in. -/
theorem format_sorts_caller_array_witness :
    ((formatConversationWithMessages "ORG" inlineConv
        [lateMessage, earlyMessage]).2 = sortMessages [lateMessage, earlyMessage] ∧
      (processConversation "ORG" apiErr inlineConv).2.messages =
        some (sortMessages [lateMessage, earlyMessage])) ∧
    sortMessages [lateMessage, earlyMessage] = [earlyMessage, lateMessage] ∧
    sortMessages [lateMessage, earlyMessage] ≠ [lateMessage, earlyMessage] :=
  ⟨format_sorts_caller_array "ORG" apiErr inlineConv inlineConv
      [lateMessage, earlyMessage] rfl, by decide, by decide⟩

/-- The backfill only ever touches the department field. -/
theorem backfillDepartment_id (conversation : Conversation) :
    (backfillDepartment conversation).id = conversation.id := by
  unfold backfillDepartment
  split_ifs <;> rfl

/-- Whatever path `processConversation` takes, the produced record's chat id
is the conversation id's decimal string. -/
theorem processConversation_chatId (orgId : String)
    (api : String → Option Response) (conversation : Conversation) :
    (processConversation orgId api conversation).1.chatId =
      Nat.repr conversation.id := by
  cases h : conversation.messages with
  | some inlineMessages =>
    simp only [processConversation, h]
    exact formatCWM_chatId orgId conversation inlineMessages
  | none =>
    simp only [processConversation, h]
    by_cases hl : (getChatMessages api (Nat.repr conversation.id)).length > 0
    · rw [if_pos hl]
      exact formatCWM_chatId orgId conversation _
    · rw [if_neg hl]
      rfl

/-- The chats of the cache at the end of the batch loop: the starting chats
followed by one record per processed conversation, in order. -/
theorem processBatchesAux_getLastD_chats (orgId : String)
    (api : String → Option Response) (now : String) (totalBatches : Nat) :
    ∀ (fuel : Nat) (cache : Cache) (remaining : List Conversation) (b : Nat),
      remaining.length ≤ fuel →
      ((processBatchesAux orgId api now totalBatches fuel cache remaining b).getLastD
          cache).chats =
        cache.chats ++ remaining.map fun conversation =>
          (processConversation orgId api conversation).1
  | 0, cache, remaining, b, h => by
    have hr : remaining = [] := List.length_eq_zero.mp (Nat.le_zero.mp h)
    subst hr
    simp [processBatchesAux]
  | fuel + 1, cache, remaining, b, h => by
    by_cases he : remaining.isEmpty
    · rw [List.isEmpty_iff.mp he]
      simp [processBatchesAux]
    · have hlen : (remaining.drop 10).length ≤ fuel := by
        have h1 : remaining.length ≠ 0 := by
          simpa [List.isEmpty_iff_length_eq_zero] using he
        rw [List.length_drop]
        omega
      simp only [processBatchesAux]
      rw [if_neg he, List.getLastD_cons,
        processBatchesAux_getLastD_chats orgId api now totalBatches fuel _ _ _ hlen]
      show (cache.chats ++ (remaining.take 10).map fun conversation =>
            (processConversation orgId api conversation).1) ++
          ((remaining.drop 10).map fun conversation =>
            (processConversation orgId api conversation).1) =
          cache.chats ++ remaining.map fun conversation =>
            (processConversation orgId api conversation).1
      rw [List.append_assoc, ← List.map_append, List.take_append_drop]

/-- Every cache state the batch loop saves extends the starting chats by the
records of an initial part of the processed conversations. -/
theorem processBatchesAux_mem_chats (orgId : String)
    (api : String → Option Response) (now : String) (totalBatches : Nat) :
    ∀ (fuel : Nat) (cache : Cache) (remaining : List Conversation) (b : Nat),
      ∀ st ∈ processBatchesAux orgId api now totalBatches fuel cache remaining b,
        ∃ pre : List Conversation, List.Sublist pre remaining ∧
          st.chats = cache.chats ++ pre.map fun conversation =>
            (processConversation orgId api conversation).1
  | 0, cache, remaining, b, st, hst => by simp [processBatchesAux] at hst
  | fuel + 1, cache, remaining, b, st, hst => by
    by_cases he : remaining.isEmpty
    · simp only [processBatchesAux, if_pos he] at hst
      simp at hst
    · simp only [processBatchesAux] at hst
      rw [if_neg he] at hst
      rcases List.mem_cons.mp hst with rfl | hst2
      · exact ⟨remaining.take 10, List.take_sublist 10 remaining, rfl⟩
      · obtain ⟨pre, hpre, hchats⟩ :=
          processBatchesAux_mem_chats orgId api now totalBatches fuel _ _ _ st hst2
        refine ⟨remaining.take 10 ++ pre, ?_, ?_⟩
        · have h1 : List.Sublist (remaining.take 10 ++ pre)
              (remaining.take 10 ++ remaining.drop 10) :=
            List.Sublist.append_left hpre _
          rwa [List.take_append_drop] at h1
        · rw [hchats]
          show (cache.chats ++ (remaining.take 10).map fun conversation =>
                (processConversation orgId api conversation).1) ++
              (pre.map fun conversation =>
                (processConversation orgId api conversation).1) =
              cache.chats ++ (remaining.take 10 ++ pre).map fun conversation =>
                (processConversation orgId api conversation).1
          rw [List.append_assoc, ← List.map_append]

/-- C2 amended: provided the fetched conversation list itself repeats no id
(no two fetched conversations share a decimal id string), a run starting from
a cache with pairwise-distinct chat ids keeps the chat ids pairwise distinct
in the final cache and in every cache state saved after a batch append; in
particular re-runs over conversation sets overlapping the cache add no
duplicates.  (Without that proviso the claim fails: see the counterexample.) -/
theorem cache_chatIds_nodup_amended (cfg : Config) (cache : Cache)
    (conversations : List Conversation) (api : String → Option Response)
    (now : String)
    (h1 : (cache.chats.map ExportedChat.chatId).Nodup)
    (h2 : (conversations.map fun conversation =>
      Nat.repr conversation.id).Nodup) :
    ((exportRun cfg cache conversations api now).1.chats.map
      ExportedChat.chatId).Nodup ∧
    ∀ st ∈ exportRunCacheStates cfg cache conversations api now,
      (st.chats.map ExportedChat.chatId).Nodup := by
  by_cases hc : conversations.isEmpty
  · constructor
    · rw [exportRun, if_pos hc]
      exact h1
    · rw [exportRunCacheStates, if_pos hc]
      intro st hst
      simp at hst
  by_cases hf : (filterConversationsByDepartment cfg.departmentFilter
      conversations).isEmpty
  · constructor
    · simp only [exportRun]
      rw [if_neg hc, if_pos hf]
      exact h1
    · simp only [exportRunCacheStates]
      rw [if_neg hc, if_pos hf]
      intro st hst
      simp at hst
  by_cases hu : ((filterConversationsByDepartment cfg.departmentFilter
      conversations).filter fun conversation =>
        !(isConversationCached cache conversation.id)).isEmpty
  · constructor
    · simp only [exportRun]
      rw [if_neg hc, if_neg hf, if_pos hu]
      exact h1
    · simp only [exportRunCacheStates]
      rw [if_neg hc, if_neg hf, if_pos hu]
      intro st hst
      simp at hst
  · have hfinal : (exportRun cfg cache conversations api now).1 =
        processBatches cfg.organizationId api now cache
          ((filterConversationsByDepartment cfg.departmentFilter
            conversations).filter fun conversation =>
              !(isConversationCached cache conversation.id)) := by
      simp only [exportRun]
      rw [if_neg hc, if_neg hf, if_neg hu]
    have hstates : exportRunCacheStates cfg cache conversations api now =
        processBatchStates cfg.organizationId api now cache
          ((filterConversationsByDepartment cfg.departmentFilter
            conversations).filter fun conversation =>
              !(isConversationCached cache conversation.id)) := by
      simp only [exportRunCacheStates]
      rw [if_neg hc, if_neg hf, if_neg hu]
    have hproj : ∀ l : List Conversation,
        (l.map fun conversation =>
            (processConversation cfg.organizationId api conversation).1).map
          ExportedChat.chatId =
        l.map fun conversation => Nat.repr conversation.id := by
      intro l
      rw [List.map_map]
      refine List.map_congr_left fun conversation _ => ?_
      show (processConversation cfg.organizationId api conversation).1.chatId =
        Nat.repr conversation.id
      rw [processConversation_chatId]
    have hsubids : List.Sublist
        (((filterConversationsByDepartment cfg.departmentFilter
            conversations).filter fun conversation =>
              !(isConversationCached cache conversation.id)).map
          fun conversation => Nat.repr conversation.id)
        (conversations.map fun conversation => Nat.repr conversation.id) := by
      have s1 := List.filter_sublist (p := fun conversation =>
        !(isConversationCached cache conversation.id))
        (filterConversationsByDepartment cfg.departmentFilter conversations)
      have s2 := List.filter_sublist
        (p := keepByDepartment cfg.departmentFilter)
        (conversations.map backfillDepartment)
      have s3 := (s1.trans s2).map fun conversation =>
        Nat.repr conversation.id
      rw [List.map_map] at s3
      have s4 : (conversations.map
          ((fun conversation => Nat.repr conversation.id) ∘ backfillDepartment)) =
          conversations.map fun conversation => Nat.repr conversation.id := by
        refine List.map_congr_left fun conversation _ => ?_
        show Nat.repr (backfillDepartment conversation).id =
          Nat.repr conversation.id
        rw [backfillDepartment_id]
      rwa [s4] at s3
    have hndunc : (((filterConversationsByDepartment cfg.departmentFilter
        conversations).filter fun conversation =>
          !(isConversationCached cache conversation.id)).map
        fun conversation => Nat.repr conversation.id).Nodup :=
      List.Nodup.sublist hsubids h2
    have hdisj : List.Disjoint (cache.chats.map ExportedChat.chatId)
        (((filterConversationsByDepartment cfg.departmentFilter
            conversations).filter fun conversation =>
              !(isConversationCached cache conversation.id)).map
          fun conversation => Nat.repr conversation.id) := by
      intro a ha hb
      obtain ⟨conversation, hcmem, hcid⟩ := List.mem_map.mp hb
      obtain ⟨chat, hchat, hchatid⟩ := List.mem_map.mp ha
      have hfil := (List.mem_filter.mp hcmem).2
      rw [Bool.not_eq_eq_eq_not, Bool.not_true] at hfil
      rw [isConversationCached] at hfil
      have hnone := List.any_eq_false.mp hfil chat hchat
      apply hnone
      rw [beq_iff_eq, hchatid, hcid]
    have hbig : ((cache.chats.map ExportedChat.chatId) ++
        (((filterConversationsByDepartment cfg.departmentFilter
            conversations).filter fun conversation =>
              !(isConversationCached cache conversation.id)).map
          fun conversation => Nat.repr conversation.id)).Nodup :=
      h1.append hndunc hdisj
    constructor
    · rw [hfinal, processBatches, processBatchStates,
        processBatchesAux_getLastD_chats cfg.organizationId api now _ _ cache _ 1
          (Nat.le_refl _),
        List.map_append, hproj]
      exact hbig
    · intro st hst
      rw [hstates, processBatchStates] at hst
      obtain ⟨pre, hpre, hchats⟩ :=
        processBatchesAux_mem_chats cfg.organizationId api now _ _ cache _ 1 st hst
      have hids : st.chats.map ExportedChat.chatId =
          cache.chats.map ExportedChat.chatId ++
            pre.map fun conversation => Nat.repr conversation.id := by
        rw [hchats, List.map_append, hproj]
      rw [hids]
      refine List.Nodup.sublist ?_ hbig
      exact List.Sublist.append_left
        (hpre.map fun conversation => Nat.repr conversation.id) _

/-- C2 counterexample: a run whose fetched list holds the same conversation
twice appends two records with the same chat id to the cache — the up-front
diff against the cache does not deduplicate within the fetched list. -/
theorem duplicate_fetch_breaks_nodup :
    (exportRun cfgStale (freshCache cfgStale) [orgConv, orgConv] apiErr
        "t").1.chats.map ExportedChat.chatId = ["1", "1"] ∧
    ¬ ((exportRun cfgStale (freshCache cfgStale) [orgConv, orgConv] apiErr
        "t").1.chats.map ExportedChat.chatId).Nodup := by
  constructor
  · decide
  · decide

/-- Witness for `cache_chatIds_nodup_amended` at a concrete run with one new
conversation over a one-chat cache. -/
theorem cache_chatIds_nodup_amended_witness :
    ((exportRun cfgStale staleCache [orgConv2] apiErr "t").1.chats.map
      ExportedChat.chatId).Nodup ∧
    ∀ st ∈ exportRunCacheStates cfgStale staleCache [orgConv2] apiErr "t",
      (st.chats.map ExportedChat.chatId).Nodup :=
  cache_chatIds_nodup_amended cfgStale staleCache [orgConv2] apiErr "t"
    (by decide) (by decide)

/-- C1 amended: when a run writes an output, either it is the `NothingNew`
output — zero new chats processed and the cache content as it stands, NOT
re-filtered by date — or it is the batch-path output, in which every chat has
a present `createdAt` at or after `fromDate`.  (The claim's assertion that the
`NothingNew` output is date-filtered like the batch path fails: see the
counterexample.) -/
theorem export_output_dates_amended (cfg : Config) (cache : Cache)
    (conversations : List Conversation) (api : String → Option Response)
    (now : String) (output : ExportOutput)
    (h : (exportRun cfg cache conversations api now).2 = some output) :
    (output.newChatsProcessed = 0 ∧ output.chats = cache.chats) ∨
    (output.newChatsProcessed ≠ 0 ∧
      ∀ chat ∈ output.chats, ∃ t, chat.createdAt = some t ∧
        cfg.fromDate ≤ t) := by
  by_cases hc : conversations.isEmpty
  · rw [exportRun, if_pos hc] at h
    simp at h
  by_cases hf : (filterConversationsByDepartment cfg.departmentFilter
      conversations).isEmpty
  · simp only [exportRun] at h
    rw [if_neg hc, if_pos hf] at h
    simp at h
  by_cases hu : ((filterConversationsByDepartment cfg.departmentFilter
      conversations).filter fun conversation =>
        !(isConversationCached cache conversation.id)).isEmpty
  · simp only [exportRun] at h
    rw [if_neg hc, if_neg hf, if_pos hu] at h
    rw [Prod.snd, Option.some.injEq] at h
    subst h
    exact Or.inl ⟨rfl, rfl⟩
  · simp only [exportRun] at h
    rw [if_neg hc, if_neg hf, if_neg hu] at h
    rw [Prod.snd, Option.some.injEq] at h
    subst h
    refine Or.inr ⟨?_, ?_⟩
    · show ((filterConversationsByDepartment cfg.departmentFilter
        conversations).filter fun conversation =>
          !(isConversationCached cache conversation.id)).length ≠ 0
      simpa [List.isEmpty_iff_length_eq_zero] using hu
    · intro chat hmem
      have hok := (List.mem_filter.mp hmem).2
      cases hca : chat.createdAt with
      | none =>
        rw [chatDateOk, hca] at hok
        exact absurd hok (by simp)
      | some t =>
        refine ⟨t, rfl, ?_⟩
        rw [chatDateOk, hca] at hok
        exact of_decide_eq_true hok

/-- C1 counterexample: a `NothingNew` run (everything fetched already cached)
writes the cache content unfiltered — here the written output holds a chat
created at 50 although `fromDate` is 100, so not every chat passes the date
check. -/
theorem nothingNew_output_not_date_filtered :
    (exportRun cfgStale staleCache [orgConv] apiErr "t").2 = some staleOutput ∧
    staleOutput.chats = [staleChat] ∧
    staleChat.createdAt = some 50 ∧
    ¬ ((50 : Int) ≥ cfgStale.fromDate) ∧
    ((exportRun cfgStale staleCache [orgConv] apiErr "t").2.map fun o =>
      o.chats.all (chatDateOk cfgStale.fromDate)) = some false := by
  refine ⟨by decide, by decide, by decide, by decide, by decide⟩

/-- Witness for `export_output_dates_amended` at the concrete `NothingNew`
run over `staleCache`. -/
theorem export_output_dates_amended_witness :
    (staleOutput.newChatsProcessed = 0 ∧ staleOutput.chats = staleCache.chats) ∨
    (staleOutput.newChatsProcessed ≠ 0 ∧
      ∀ chat ∈ staleOutput.chats, ∃ t, chat.createdAt = some t ∧
        cfgStale.fromDate ≤ t) :=
  export_output_dates_amended cfgStale staleCache [orgConv] apiErr "t"
    staleOutput (by decide)

end HCExport
